import Mathlib

/-
Verification of the CMV cache-impact benchmark core
(docs/assets/benchmark_analysis.py) against its specification.

Shallow embedding notes.  The Python source computes costs in IEEE-754
double precision and rounds with the built-in round (round half to even);
the embedding idealizes floating-point numbers as exact rationals and
models round as round-half-to-even on rationals (pyRound below).  Machine
integers in the source are arbitrary-precision Python ints, embedded as
Nat or Int; the Python floor division operator on ints is Int.fdiv.
-/

namespace CMV

/-! Pricing tables (PRICING constant in the source). -/

structure Pricing where
  input : ℚ
  cache_write : ℚ
  cache_read : ℚ
deriving DecidableEq

/-- The sonnet entry of the PRICING table: input 3.00, cache_write 3.75,
cache_read 0.30. -/
def sonnetPricing : Pricing := { input := 3, cache_write := 15/4, cache_read := 3/10 }

/-! CostProjector (cost_per_turn, cold_cost, project_costs in the source). -/

/-- Embeds cost_per_turn: a steady-state turn where a hit_rate fraction of
tokens is read from cache and the rest incurs a cache write. -/
def cost_per_turn (tokens hit_rate : ℚ) (pricing : Pricing) : ℚ :=
  let cached := tokens * hit_rate
  let fresh := tokens * (1 - hit_rate)
  cached / 1000000 * pricing.cache_read + fresh / 1000000 * pricing.cache_write

/-- Embeds cold_cost: the first turn after a trim rewrites the whole
(smaller) context into the cache. -/
def cold_cost (tokens : ℚ) (pricing : Pricing) : ℚ :=
  tokens / 1000000 * pricing.cache_write

structure CacheCostProjection where
  turns : List ℕ
  no_trim : List ℚ
  with_trim : List ℚ
  breakeven : ℕ

/-- First index of the list whose entry is nonnegative (the embedding of
the numpy expression where(diff greater-or-equal 0) followed by taking the
first index). -/
def firstIdxGE : List ℚ → Option ℕ
  | [] => none
  | d :: rest => if 0 ≤ d then some 0 else (firstIdxGE rest).map (fun i => i + 1)

/-- Embeds project_costs: cumulative no-trim and with-trim cost curves for
turns 1..max_turns and the first turn where the difference is nonnegative,
saturating at max_turns when there is none. -/
def project_costs (pre_tokens post_tokens : ℚ) (pricing : Pricing)
    (hit_rate : ℚ) (max_turns : ℕ) : CacheCostProjection :=
  let turns : List ℕ := (List.range max_turns).map (fun i => i + 1)
  let pre_cost := cost_per_turn pre_tokens hit_rate pricing
  let post_steady := cost_per_turn post_tokens hit_rate pricing
  let post_first := cold_cost post_tokens pricing
  let no_trim := turns.map (fun (t : ℕ) => pre_cost * (t : ℚ))
  let with_trim := turns.map (fun (t : ℕ) => post_first + post_steady * ((t : ℚ) - 1))
  let diff := List.zipWith (fun a b => a - b) no_trim with_trim
  let breakeven :=
    match firstIdxGE diff with
    | some i => i + 1
    | none => max_turns
  { turns := turns, no_trim := no_trim, with_trim := with_trim, breakeven := breakeven }

/-- Cumulative no-trim cost at turn t, as built by project_costs. -/
def no_trim_cum (pre_tokens hit_rate : ℚ) (pricing : Pricing) (t : ℕ) : ℚ :=
  cost_per_turn pre_tokens hit_rate pricing * (t : ℚ)

/-- Cumulative with-trim cost at turn t, as built by project_costs. -/
def with_trim_cum (post_tokens hit_rate : ℚ) (pricing : Pricing) (t : ℕ) : ℚ :=
  cold_cost post_tokens pricing + cost_per_turn post_tokens hit_rate pricing * ((t : ℚ) - 1)

lemma zipWith_sub_map (g h : ℕ → ℚ) (l : List ℕ) :
    List.zipWith (fun a b => a - b) (l.map g) (l.map h) = l.map (fun x => g x - h x) := by
  induction l with
  | nil => rfl
  | cons x xs ih => simp [ih]

lemma firstIdxGE_map_range_eq_none (g : ℕ → ℚ) (n : ℕ)
    (h : firstIdxGE ((List.range n).map g) = none) : ∀ j, j < n → g j < 0 := by
  induction n generalizing g with
  | zero => intro j hj; omega
  | succ m ih =>
    rw [List.range_succ_eq_map, List.map_cons, List.map_map] at h
    unfold firstIdxGE at h
    by_cases h0 : 0 ≤ g 0
    · rw [if_pos h0] at h; exact absurd h (by simp)
    · rw [if_neg h0] at h
      have hrest : firstIdxGE ((List.range m).map (g ∘ Nat.succ)) = none := by
        rcases hx : firstIdxGE ((List.range m).map (g ∘ Nat.succ)) with _ | i
        · rfl
        · rw [hx] at h; exact absurd h (by simp)
      have htail := ih (g ∘ Nat.succ) hrest
      intro j hj
      cases j with
      | zero => exact lt_of_not_le h0
      | succ k => exact htail k (by omega)

lemma firstIdxGE_map_range_eq_some (g : ℕ → ℚ) (n i : ℕ)
    (h : firstIdxGE ((List.range n).map g) = some i) :
    i < n ∧ 0 ≤ g i ∧ ∀ j, j < i → g j < 0 := by
  induction n generalizing g i with
  | zero => simp [firstIdxGE] at h
  | succ m ih =>
    rw [List.range_succ_eq_map, List.map_cons, List.map_map] at h
    unfold firstIdxGE at h
    by_cases h0 : 0 ≤ g 0
    · rw [if_pos h0] at h
      have : i = 0 := by simpa using h.symm
      subst this
      exact ⟨by omega, h0, by intro j hj; omega⟩
    · rw [if_neg h0] at h
      rcases hx : firstIdxGE ((List.range m).map (g ∘ Nat.succ)) with _ | i0
      · rw [hx] at h; exact absurd h (by simp)
      · rw [hx] at h
        have hi : i = i0 + 1 := by simpa using h.symm
        subst hi
        obtain ⟨h1, h2, h3⟩ := ih (g ∘ Nat.succ) i0 hx
        refine ⟨by omega, h2, ?_⟩
        intro j hj
        cases j with
        | zero => exact lt_of_not_le h0
        | succ k => exact h3 k (by omega)

/-- The breakeven field of project_costs, rewritten as a scan over the
indexwise difference of the two cumulative cost curves. -/
lemma breakeven_def (pre post : ℚ) (p : Pricing) (hr : ℚ) (n : ℕ) :
    (project_costs pre post p hr n).breakeven =
      match firstIdxGE ((List.range n).map
          (fun i => no_trim_cum pre hr p (i + 1) - with_trim_cum post hr p (i + 1))) with
      | some i => i + 1
      | none => n := by
  unfold project_costs
  simp only [List.map_map]
  rw [zipWith_sub_map]
  rfl

lemma firstIdxGE_map_range_none_of (g : ℕ → ℚ) (n : ℕ)
    (h : ∀ j, j < n → g j < 0) : firstIdxGE ((List.range n).map g) = none := by
  induction n generalizing g with
  | zero => rfl
  | succ m ih =>
    rw [List.range_succ_eq_map, List.map_cons, List.map_map]
    unfold firstIdxGE
    rw [if_neg (not_le.mpr (h 0 (by omega)))]
    rw [ih (g ∘ Nat.succ) (fun j hj => h (j + 1) (by omega))]
    rfl

/-- C2 core: full characterization of the breakeven field.  It is the
smallest turn t in 1..max_turns with with-trim cumulative cost at most the
no-trim cumulative cost, and max_turns when no such turn exists; in either
case it lies in the interval 1..max_turns. -/
theorem projectCosts_breakeven_characterization
    (pre post : ℚ) (p : Pricing) (hr : ℚ) (maxTurns : ℕ) (hm : 1 ≤ maxTurns) :
    1 ≤ (project_costs pre post p hr maxTurns).breakeven ∧
    (project_costs pre post p hr maxTurns).breakeven ≤ maxTurns ∧
    ((with_trim_cum post hr p ((project_costs pre post p hr maxTurns).breakeven) ≤
        no_trim_cum pre hr p ((project_costs pre post p hr maxTurns).breakeven) ∧
      ∀ t, 1 ≤ t → t < (project_costs pre post p hr maxTurns).breakeven →
        no_trim_cum pre hr p t < with_trim_cum post hr p t) ∨
     ((project_costs pre post p hr maxTurns).breakeven = maxTurns ∧
      ∀ t, 1 ≤ t → t ≤ maxTurns →
        no_trim_cum pre hr p t < with_trim_cum post hr p t)) := by
  have hbe := breakeven_def pre post p hr maxTurns
  rcases hfi : firstIdxGE ((List.range maxTurns).map
      (fun i => no_trim_cum pre hr p (i + 1) - with_trim_cum post hr p (i + 1))) with _ | i
  · rw [hfi] at hbe
    have hbe2 : (project_costs pre post p hr maxTurns).breakeven = maxTurns := hbe
    rw [hbe2]
    have hall := firstIdxGE_map_range_eq_none _ _ hfi
    refine ⟨hm, le_refl _, Or.inr ⟨rfl, ?_⟩⟩
    intro t h1 h2
    have h3 : no_trim_cum pre hr p (t - 1 + 1) - with_trim_cum post hr p (t - 1 + 1) < 0 :=
      hall (t - 1) (by omega)
    rw [(by omega : t - 1 + 1 = t)] at h3
    linarith
  · rw [hfi] at hbe
    have hbe2 : (project_costs pre post p hr maxTurns).breakeven = i + 1 := hbe
    rw [hbe2]
    obtain ⟨hlt, hge, hmin⟩ := firstIdxGE_map_range_eq_some _ _ _ hfi
    have hge2 : 0 ≤ no_trim_cum pre hr p (i + 1) - with_trim_cum post hr p (i + 1) := hge
    refine ⟨by omega, by omega, Or.inl ⟨by linarith, ?_⟩⟩
    intro t h1 h2
    have h3 : no_trim_cum pre hr p (t - 1 + 1) - with_trim_cum post hr p (t - 1 + 1) < 0 :=
      hmin (t - 1) (by omega)
    rw [(by omega : t - 1 + 1 = t)] at h3
    linarith

/-- C2 witness: the characterization evaluated at a concrete query. -/
theorem projectCosts_breakeven_characterization_witness :
    1 ≤ 5 ∧
    (1 ≤ (project_costs 2 1 sonnetPricing (9/10) 5).breakeven ∧
    (project_costs 2 1 sonnetPricing (9/10) 5).breakeven ≤ 5 ∧
    ((with_trim_cum 1 (9/10) sonnetPricing ((project_costs 2 1 sonnetPricing (9/10) 5).breakeven) ≤
        no_trim_cum 2 (9/10) sonnetPricing ((project_costs 2 1 sonnetPricing (9/10) 5).breakeven) ∧
      ∀ t, 1 ≤ t → t < (project_costs 2 1 sonnetPricing (9/10) 5).breakeven →
        no_trim_cum 2 (9/10) sonnetPricing t < with_trim_cum 1 (9/10) sonnetPricing t) ∨
     ((project_costs 2 1 sonnetPricing (9/10) 5).breakeven = 5 ∧
      ∀ t, 1 ≤ t → t ≤ 5 →
        no_trim_cum 2 (9/10) sonnetPricing t < with_trim_cum 1 (9/10) sonnetPricing t))) :=
  ⟨by norm_num, projectCosts_breakeven_characterization 2 1 sonnetPricing (9/10) 5 (by norm_num)⟩

/-- C1 counterexample: with postTokens equal to preTokens (100000 tokens),
sonnet pricing and hit rate 0.9, every turn has with-trim cumulative cost
strictly above the no-trim one (the cold rewrite costs more than a 90
percent cached steady turn), so project_costs reports max_turns (60), not
turn 1 as the claim states. -/
theorem projectCosts_equal_tokens_counterexample :
    (project_costs 100000 100000 sonnetPricing (9/10) 60).breakeven = 60 ∧
    (project_costs 100000 100000 sonnetPricing (9/10) 60).breakeven ≠ 1 := by
  have hnone : firstIdxGE ((List.range 60).map
      (fun i => no_trim_cum 100000 (9/10) sonnetPricing (i + 1) -
        with_trim_cum 100000 (9/10) sonnetPricing (i + 1))) = none := by
    apply firstIdxGE_map_range_none_of
    intro j hj
    have hconst : no_trim_cum 100000 (9/10) sonnetPricing (j + 1) -
        with_trim_cum 100000 (9/10) sonnetPricing (j + 1) =
        cost_per_turn 100000 (9/10) sonnetPricing - cold_cost 100000 sonnetPricing := by
      unfold no_trim_cum with_trim_cum
      push_cast
      ring
    rw [hconst]
    norm_num [cost_per_turn, cold_cost, sonnetPricing]
  have hbe := breakeven_def 100000 100000 sonnetPricing (9/10) 60
  rw [hnone] at hbe
  have hbe2 : (project_costs 100000 100000 sonnetPricing (9/10) 60).breakeven = 60 := hbe
  exact ⟨hbe2, by rw [hbe2]; norm_num⟩

/-- C1 amended: with postTokens equal to preTokens, project_costs reports
break-even turn 1 exactly under the condition that the first-turn cold
cost does not exceed the steady per-turn cost, i.e. when
tokens times hit_rate times (cache_read minus cache_write) is nonnegative
(in particular whenever the hit rate is zero). -/
theorem projectCosts_equal_tokens_breakeven_one
    (tokens : ℚ) (p : Pricing) (hr : ℚ) (maxTurns : ℕ)
    (hm : 1 ≤ maxTurns)
    (h : 0 ≤ tokens * hr * (p.cache_read - p.cache_write)) :
    (project_costs tokens tokens p hr maxTurns).breakeven = 1 := by
  rw [breakeven_def]
  obtain ⟨k, rfl⟩ : ∃ k, maxTurns = k + 1 := ⟨maxTurns - 1, by omega⟩
  rw [List.range_succ_eq_map, List.map_cons]
  unfold firstIdxGE
  rw [if_pos]
  have hd : no_trim_cum tokens hr p (0 + 1) - with_trim_cum tokens hr p (0 + 1) =
      tokens * hr * (p.cache_read - p.cache_write) / 1000000 := by
    unfold no_trim_cum with_trim_cum cost_per_turn cold_cost
    push_cast
    ring
  rw [hd]
  positivity

/-- C1 amended witness: equal token counts with hit rate zero break even
at turn 1. -/
theorem projectCosts_equal_tokens_breakeven_one_witness :
    (1 ≤ 60 ∧ 0 ≤ (100000 : ℚ) * 0 * (sonnetPricing.cache_read - sonnetPricing.cache_write)) ∧
    (project_costs 100000 100000 sonnetPricing 0 60).breakeven = 1 :=
  ⟨⟨by norm_num, by norm_num⟩,
    projectCosts_equal_tokens_breakeven_one 100000 sonnetPricing 0 60 (by norm_num) (by norm_num)⟩

/-!
SessionAnalyzer (analyze_session in the source).

A parsed JSONL line is abstracted to a tagged record carrying exactly the
quantities the analyzer reads from it:
- malformed: a line that fails JSON parsing; only its byte length matters.
- compaction: a record of type summary, or type system with subtype
  compact_boundary; carries its byte length and, when a truthy summary
  string (or string content) is present, that string's character length.
- fileHistory: a file-history-snapshot record (byte length only).
- queueOp: a queue-operation record (byte length only).
- message: every other record; carries its byte length, the role resolved
  from the role-or-type field, the API-reported input-token total (the sum
  of input_tokens, cache_creation_input_tokens and cache_read_input_tokens
  when a usage object with a non-null input_tokens is present), and the
  content value.

Content blocks carry the byte lengths the source obtains by re-serializing
the block with json.dumps; these serialized lengths are data of the
record because the analyzer derives them from the raw block, and they can
exceed the compact on-disk length (json.dumps inserts a space after every
colon and comma and escapes non-ASCII characters).
-/

inductive Role where
  | user
  | human
  | assistant
  | other
deriving DecidableEq

/-- Roles whose record remainder bytes go to the conversation counter. -/
def Role.isConv : Role → Bool
  | .user => true
  | .human => true
  | .assistant => true
  | .other => false

/-- Roles counted as user messages (user or human). -/
def Role.isUserLike : Role → Bool
  | .user => true
  | .human => true
  | _ => false

inductive Block where
  | text : ℕ → Block
  | thinking : Option ℕ → Option ℕ → Block
  | tool_use : ℕ → Option ℕ → Block
  | tool_result : ℕ → ℕ → Block
  | other : Block
deriving DecidableEq

inductive ContentVal where
  | str : ℕ → ContentVal
  | blocks : List Block → ContentVal
  | missing : ContentVal
deriving DecidableEq

inductive Record where
  | malformed : ℕ → Record
  | compaction : ℕ → Option ℕ → Record
  | fileHistory : ℕ → Record
  | queueOp : ℕ → Record
  | message : ℕ → Role → Option ℕ → ContentVal → Record
deriving DecidableEq

/-- Per-record block accumulator: the tr_b, sig_b, tu_b byte tallies of the
source's inner loop plus the count and character-count increments. -/
structure BlockAcc where
  trB : ℕ
  sigB : ℕ
  tuB : ℕ
  trCount : ℕ
  thCount : ℕ
  tuCount : ℕ
  chars : ℕ
deriving DecidableEq

def zeroAcc : BlockAcc := ⟨0, 0, 0, 0, 0, 0, 0⟩

/-- One iteration of the source's content-block loop.  A tool_result block
adds its serialized bytes to tr_b and its inner text characters to the
character count; a thinking block adds its serialized signature bytes (and
one thinking count) only when a truthy signature is present, plus its
thinking-string characters; a tool_use block adds its serialized bytes and
the serialized characters of a truthy input payload; a text block adds its
text characters; any other block is skipped. -/
def procBlock (a : BlockAcc) (b : Block) : BlockAcc :=
  match b with
  | .tool_result ser inner =>
      { a with trB := a.trB + ser, trCount := a.trCount + 1, chars := a.chars + inner }
  | .thinking sig think =>
      { a with sigB := a.sigB + sig.getD 0,
               thCount := a.thCount + (if sig.isSome then 1 else 0),
               chars := a.chars + think.getD 0 }
  | .tool_use ser inp =>
      { a with tuB := a.tuB + ser, tuCount := a.tuCount + 1, chars := a.chars + inp.getD 0 }
  | .text n => { a with chars := a.chars + n }
  | .other => a

/-- Block tallies of a record content: a bare string contributes only its
character length; a block list is folded with procBlock; absent content
contributes nothing. -/
def contentAcc : ContentVal → BlockAcc
  | .str n => { zeroAcc with chars := n }
  | .blocks bs => bs.foldl procBlock zeroAcc
  | .missing => zeroAcc

/-- The analyzer's running counters: seven byte counters (six categories
plus total), per-category counts, the content character counter, user and
assistant message counts, and the last-API-checkpoint pair. -/
structure AnalyzerState where
  totalBytes : ℕ
  toolResultBytes : ℕ
  toolResultCount : ℕ
  thinkingBytes : ℕ
  thinkingCount : ℕ
  fileHistoryBytes : ℕ
  fileHistoryCount : ℕ
  conversationBytes : ℕ
  toolUseBytes : ℕ
  toolUseCount : ℕ
  otherBytes : ℕ
  contentChars : ℕ
  msgUser : ℕ
  msgAssistant : ℕ
  lastApiInputTokens : Option ℕ
  contentCharsAtLastApi : ℕ
deriving DecidableEq

def initState : AnalyzerState := ⟨0, 0, 0, 0, 0, 0, 0, 0, 0, 0, 0, 0, 0, 0, none, 0⟩

/-- One iteration of the analyzer's main loop over parsed lines.  Mirrors
the source order: a compaction boundary replaces the whole state (total
seeded with the line's bytes, conversation and character counters seeded
from an inline summary, the last-seen API input-token total left as it
was); otherwise the line's bytes are added to total, then the
file-history and queue-operation branches, then role counting and the
assistant usage checkpoint (taken before this record's content characters
are added), then block classification and the remainder rule, under which
max(0, lineBytes - accountedBytes) goes to conversation for a
user, human or assistant role and to other otherwise. -/
def step (s : AnalyzerState) (r : Record) : AnalyzerState :=
  match r with
  | .malformed lb =>
      { s with totalBytes := s.totalBytes + lb, otherBytes := s.otherBytes + lb }
  | .compaction lb sm =>
      { totalBytes := lb, toolResultBytes := 0, toolResultCount := 0,
        thinkingBytes := 0, thinkingCount := 0,
        fileHistoryBytes := 0, fileHistoryCount := 0,
        conversationBytes := if sm.isSome then lb else 0,
        toolUseBytes := 0, toolUseCount := 0, otherBytes := 0,
        contentChars := sm.getD 0, msgUser := 0, msgAssistant := 0,
        lastApiInputTokens := s.lastApiInputTokens, contentCharsAtLastApi := 0 }
  | .fileHistory lb =>
      { s with totalBytes := s.totalBytes + lb,
               fileHistoryBytes := s.fileHistoryBytes + lb,
               fileHistoryCount := s.fileHistoryCount + 1 }
  | .queueOp lb =>
      { s with totalBytes := s.totalBytes + lb, otherBytes := s.otherBytes + lb }
  | .message lb role usage content =>
      let acc := contentAcc content
      let accounted := acc.trB + acc.sigB + acc.tuB
      let rem := lb - accounted
      let ckpt : Option ℕ × ℕ :=
        match role, usage with
        | .assistant, some api =>
            if 0 < api ∧ some api ≠ s.lastApiInputTokens
            then (some api, s.contentChars)
            else (s.lastApiInputTokens, s.contentCharsAtLastApi)
        | _, _ => (s.lastApiInputTokens, s.contentCharsAtLastApi)
      { totalBytes := s.totalBytes + lb,
        toolResultBytes := s.toolResultBytes + acc.trB,
        toolResultCount := s.toolResultCount + acc.trCount,
        thinkingBytes := s.thinkingBytes + acc.sigB,
        thinkingCount := s.thinkingCount + acc.thCount,
        fileHistoryBytes := s.fileHistoryBytes,
        fileHistoryCount := s.fileHistoryCount,
        conversationBytes := s.conversationBytes + (if role.isConv then rem else 0),
        toolUseBytes := s.toolUseBytes + acc.tuB,
        toolUseCount := s.toolUseCount + acc.tuCount,
        otherBytes := s.otherBytes + (if role.isConv then 0 else rem),
        contentChars := s.contentChars + acc.chars,
        msgUser := s.msgUser + (if role.isUserLike then 1 else 0),
        msgAssistant := s.msgAssistant + (if role = .assistant then 1 else 0),
        lastApiInputTokens := ckpt.1,
        contentCharsAtLastApi := ckpt.2 }

/-! Token estimation and the SessionData record. -/

def SYSTEM_OVERHEAD : ℕ := 20000

def TIER_TOOL_HEAVY : ℤ := 40

def TIER_MIXED : ℤ := 15

/-- The Python built-in round on a rational: round half to even. -/
def pyRound (q : ℚ) : ℤ :=
  if q - (⌊q⌋ : ℚ) < 1/2 then ⌊q⌋
  else if 1/2 < q - (⌊q⌋ : ℚ) then ⌊q⌋ + 1
  else if ⌊q⌋ % 2 = 0 then ⌊q⌋ else ⌊q⌋ + 1

/-- Embeds the SessionData dataclass (defaults as in the source). -/
structure SessionData where
  session_id : String
  project : String
  estimated_tokens : ℤ
  post_trim_tokens : ℤ
  reduction_pct : ℚ
  message_count : ℕ
  breakeven_turns : ℕ
  cache_miss_penalty : ℚ
  savings_per_turn : ℚ
  tool_result_byte_pct : ℤ
  tool_result_bytes : ℕ
  thinking_bytes : ℕ
  file_history_bytes : ℕ
  conversation_bytes : ℕ
  tool_use_bytes : ℕ
  other_bytes : ℕ
  total_bytes : ℕ
  tool_result_count : ℕ
deriving DecidableEq

/-- Embeds the tier property: a pure function of tool_result_byte_pct with
the fixed thresholds TIER_TOOL_HEAVY and TIER_MIXED. -/
def SessionData.tier (s : SessionData) : String :=
  if s.tool_result_byte_pct > TIER_TOOL_HEAVY then "tool_heavy"
  else if s.tool_result_byte_pct > TIER_MIXED then "mixed"
  else "conversational"

/-- Estimated pre-trim tokens: anchor-and-delta when an API checkpoint was
observed (Python floor division is Int.fdiv), otherwise the character
heuristic plus the fixed system overhead. -/
def estTok (st : AnalyzerState) : ℤ :=
  match st.lastApiInputTokens with
  | some a => (a : ℤ) + Int.fdiv ((st.contentChars : ℤ) - (st.contentCharsAtLastApi : ℤ)) 4
  | none => (st.contentChars / 4 : ℕ) + (SYSTEM_OVERHEAD : ℤ)

/-- The weighted removable-bytes quantity of the post-trim heuristic. -/
def removedOf (st : AnalyzerState) : ℚ :=
  (st.fileHistoryBytes : ℚ) + (st.thinkingBytes : ℚ)
    + (st.toolResultBytes : ℚ) * (7/10)
    - (st.toolResultCount : ℚ) * 35
    + (st.toolUseBytes : ℚ) * (3/10)

/-- The reduction ratio, clamped to the interval from 0 to 0.95. -/
def ratioOf (st : AnalyzerState) : ℚ :=
  max 0 (min (19/20) (removedOf st / (st.totalBytes : ℚ)))

/-- The content portion of the token estimate (the estimate less the
fixed overhead, floored at zero). -/
def contentTokOf (st : AnalyzerState) : ℤ :=
  max 0 (estTok st - (SYSTEM_OVERHEAD : ℤ))

/-- Post-trim tokens before the monotonicity clamp: the ratio is applied to
the content portion of the estimate only and the overhead added back; when
total_bytes is zero the estimate is returned unchanged. -/
def postRawOf (st : AnalyzerState) : ℤ :=
  if 0 < st.totalBytes then
    pyRound ((contentTokOf st : ℚ) * (1 - ratioOf st)) + (SYSTEM_OVERHEAD : ℤ)
  else estTok st

/-- Post-trim tokens, clamped to never exceed the estimate. -/
def postTrimOf (st : AnalyzerState) : ℤ :=
  min (postRawOf st) (estTok st)

/-- Reduction percent: rounded to one decimal and clamped below at zero,
and zero when the estimate is not positive. -/
def reductionOf (st : AnalyzerState) : ℚ :=
  if 0 < estTok st then
    max 0 ((pyRound ((((estTok st : ℚ) - (postTrimOf st : ℚ)) / (estTok st : ℚ) * 100) * 10) : ℚ) / 10)
  else 0

/-- Tool-result byte percentage, rounded; zero when total_bytes is zero. -/
def trPctOf (st : AnalyzerState) : ℤ :=
  if 0 < st.totalBytes then
    pyRound ((st.toolResultBytes : ℚ) / (st.totalBytes : ℚ) * 100)
  else 0

/-- The SessionData built from a finished analyzer state (the source's
closing section of analyze_session).  The derived cost fields keep their
dataclass defaults; they are filled later by the cost projector. -/
def mkSessionData (name proj : String) (st : AnalyzerState) : SessionData :=
  { session_id := name, project := proj,
    estimated_tokens := estTok st,
    post_trim_tokens := postTrimOf st,
    reduction_pct := reductionOf st,
    message_count := st.msgUser + st.msgAssistant,
    breakeven_turns := 0, cache_miss_penalty := 0, savings_per_turn := 0,
    tool_result_byte_pct := trPctOf st,
    tool_result_bytes := st.toolResultBytes,
    thinking_bytes := st.thinkingBytes,
    file_history_bytes := st.fileHistoryBytes,
    conversation_bytes := st.conversationBytes,
    tool_use_bytes := st.toolUseBytes,
    other_bytes := st.otherBytes,
    total_bytes := st.totalBytes,
    tool_result_count := st.toolResultCount }

/-- A session log file as the analyzer sees it: name and project (path
stem and parent directory), whether it can be read at all (an OSError
from getsize or open yields not-analyzable), its on-disk size, and the
sequence of non-blank lines abstracted to records. -/
structure SessionFile where
  name : String
  project : String
  readable : Bool
  size : ℕ
  records : List Record
deriving DecidableEq

/-- Embeds analyze_session: none for an unreadable file, a file smaller
than 100 bytes, or fewer than 10 combined user and assistant records;
otherwise the SessionData built from the folded state. -/
def analyze_session (f : SessionFile) : Option SessionData :=
  if f.readable = false then none
  else if f.size < 100 then none
  else
    let st := f.records.foldl step initState
    if st.msgUser + st.msgAssistant < 10 then none
    else some (mkSessionData f.name f.project st)

/-- The per-session enrichment done by the standalone main loop: breakeven
from project_costs (default horizon 60), cache-miss penalty and per-turn
savings from the two cost primitives. -/
def enrich (pricing : Pricing) (hit_rate : ℚ) (sa : SessionData) : SessionData :=
  { sa with
    breakeven_turns :=
      (project_costs (sa.estimated_tokens : ℚ) (sa.post_trim_tokens : ℚ) pricing hit_rate 60).breakeven,
    cache_miss_penalty :=
      cold_cost (sa.post_trim_tokens : ℚ) pricing -
        cost_per_turn (sa.estimated_tokens : ℚ) hit_rate pricing,
    savings_per_turn :=
      cost_per_turn (sa.estimated_tokens : ℚ) hit_rate pricing -
        cost_per_turn (sa.post_trim_tokens : ℚ) hit_rate pricing }

/-- The standalone main loop over discovered files: sessions that analyze
to none are skipped, as are sessions under the minimum token threshold;
the rest are enriched and collected in order. -/
def runBatch (files : List SessionFile) (minTokens : ℤ) (pricing : Pricing)
    (hit_rate : ℚ) : List SessionData :=
  files.filterMap fun f =>
    (analyze_session f).bind fun sa =>
      if minTokens ≤ sa.estimated_tokens then some (enrich pricing hit_rate sa) else none

/-! GroundTruthAdapter (load_from_json in the source). -/

/-- One entry of the sessions array of a ground-truth input file; optional
fields are none when the key is absent. -/
structure GTEntry where
  sessionId : String
  projectName : Option String
  estimatedTokens : ℤ
  postTrimTokens : ℤ
  reductionPercent : ℚ
  messageCount : Option ℕ
  cacheMissPenalty : Option ℚ
  savingsPerTurn : Option ℚ
  toolResultBytePct : Option ℤ
  totalBytes : Option ℕ
  trBytes : Option ℕ
  thBytes : Option ℕ
  fhBytes : Option ℕ
  cvBytes : Option ℕ
  tuBytes : Option ℕ
  otBytes : Option ℕ
  trCount : Option ℕ
deriving DecidableEq

/-- The SessionData built from one ground-truth entry: token counts,
reduction percent, penalty and savings are taken from the entry (with
zero defaults), total bytes defaults to the category sum, and only
breakeven_turns is recomputed by project_costs under the requested
pricing and hit rate with a horizon of 60 turns. -/
def sessionOfEntry (pricing : Pricing) (hit_rate : ℚ) (e : GTEntry) : SessionData :=
  let tr := e.trBytes.getD 0
  let th := e.thBytes.getD 0
  let fh := e.fhBytes.getD 0
  let cv := e.cvBytes.getD 0
  let tu := e.tuBytes.getD 0
  let ot := e.otBytes.getD 0
  { session_id := e.sessionId,
    project := e.projectName.getD "",
    estimated_tokens := e.estimatedTokens,
    post_trim_tokens := e.postTrimTokens,
    reduction_pct := e.reductionPercent,
    message_count := e.messageCount.getD 0,
    breakeven_turns :=
      (project_costs (e.estimatedTokens : ℚ) (e.postTrimTokens : ℚ) pricing hit_rate 60).breakeven,
    cache_miss_penalty := e.cacheMissPenalty.getD 0,
    savings_per_turn := e.savingsPerTurn.getD 0,
    tool_result_byte_pct := e.toolResultBytePct.getD 0,
    tool_result_bytes := tr,
    thinking_bytes := th,
    file_history_bytes := fh,
    conversation_bytes := cv,
    tool_use_bytes := tu,
    other_bytes := ot,
    total_bytes := e.totalBytes.getD (tr + th + fh + cv + tu + ot),
    tool_result_count := e.trCount.getD 0 }

/-- Embeds load_from_json: every entry of the sessions array becomes one
SessionData via sessionOfEntry. -/
def load_from_json (entries : List GTEntry) (pricing : Pricing) (hit_rate : ℚ) :
    List SessionData :=
  entries.map (sessionOfEntry pricing hit_rate)

/-! Elementary facts about pyRound. -/

lemma pyRound_nonneg (q : ℚ) (h : 0 ≤ q) : 0 ≤ pyRound q := by
  unfold pyRound
  have hf : 0 ≤ ⌊q⌋ := Int.floor_nonneg.mpr h
  split_ifs <;> omega

lemma pyRound_le (q : ℚ) (c : ℤ) (h : q ≤ (c : ℚ)) : pyRound q ≤ c := by
  unfold pyRound
  have hf : ⌊q⌋ ≤ c := by
    have := Int.floor_le_floor h
    simpa using this
  have hfq : (⌊q⌋ : ℚ) ≤ q := Int.floor_le q
  split_ifs with h1 h2 h3
  · exact hf
  · have : (⌊q⌋ : ℚ) + 1/2 < q := by linarith
    have hlt : (⌊q⌋ : ℚ) < (c : ℚ) := by linarith
    have : ⌊q⌋ < c := by exact_mod_cast hlt
    omega
  · exact hf
  · have hreq : q - (⌊q⌋ : ℚ) = 1/2 := by linarith
    have hlt : (⌊q⌋ : ℚ) < (c : ℚ) := by linarith
    have : ⌊q⌋ < c := by exact_mod_cast hlt
    omega

lemma pyRound_intCast (n : ℤ) : pyRound (n : ℚ) = n := by
  unfold pyRound
  rw [Int.floor_intCast]
  norm_num

lemma pyRound_zero : pyRound 0 = 0 := by
  have := pyRound_intCast 0
  simpa using this

/-! Reachable-state invariant of the analyzer fold: the character counter
never falls below the character count captured at the last API
checkpoint, and a recorded API input-token total is positive. -/

def goodState (s : AnalyzerState) : Prop :=
  s.contentCharsAtLastApi ≤ s.contentChars ∧
    ∀ a, s.lastApiInputTokens = some a → 0 < a

lemma goodState_init : goodState initState := by
  constructor
  · exact le_refl 0
  · intro a ha
    simp [initState] at ha

lemma goodState_step (s : AnalyzerState) (r : Record) (h : goodState s) :
    goodState (step s r) := by
  obtain ⟨h1, h2⟩ := h
  cases r with
  | malformed lb => exact ⟨h1, h2⟩
  | compaction lb sm =>
      refine ⟨by simp [step], ?_⟩
      intro a ha
      exact h2 a ha
  | fileHistory lb => exact ⟨h1, h2⟩
  | queueOp lb => exact ⟨h1, h2⟩
  | message lb role usage content =>
      cases role with
      | assistant =>
          cases usage with
          | none =>
              refine ⟨?_, ?_⟩
              · simp only [step]
                omega
              · intro a ha
                exact h2 a ha
          | some api =>
              by_cases hc : 0 < api ∧ some api ≠ s.lastApiInputTokens
              · refine ⟨?_, ?_⟩
                · simp only [step, if_pos hc]
                  omega
                · intro a ha
                  simp only [step, if_pos hc] at ha
                  have : api = a := by simpa using ha
                  omega
              · refine ⟨?_, ?_⟩
                · simp only [step, if_neg hc]
                  omega
                · intro a ha
                  simp only [step, if_neg hc] at ha
                  exact h2 a ha
      | user =>
          refine ⟨?_, ?_⟩
          · simp only [step]
            omega
          · intro a ha
            exact h2 a ha
      | human =>
          refine ⟨?_, ?_⟩
          · simp only [step]
            omega
          · intro a ha
            exact h2 a ha
      | other =>
          refine ⟨?_, ?_⟩
          · simp only [step]
            omega
          · intro a ha
            exact h2 a ha

lemma goodState_foldl (l : List Record) (s : AnalyzerState) (h : goodState s) :
    goodState (l.foldl step s) := by
  induction l generalizing s with
  | nil => exact h
  | cons r rest ih => exact ih (step s r) (goodState_step s r h)

/-- The token estimate of a reachable analyzer state is positive. -/
lemma estTok_pos (st : AnalyzerState) (h : goodState st) : 0 < estTok st := by
  obtain ⟨h1, h2⟩ := h
  unfold estTok
  cases hl : st.lastApiInputTokens with
  | none =>
      show (0:ℤ) < ((st.contentChars / 4 : ℕ) : ℤ) + (SYSTEM_OVERHEAD : ℤ)
      unfold SYSTEM_OVERHEAD
      omega
  | some a =>
      have ha := h2 a hl
      have hd : 0 ≤ Int.fdiv ((st.contentChars : ℤ) - (st.contentCharsAtLastApi : ℤ)) 4 := by
        apply Int.fdiv_nonneg
        · omega
        · omega
      show (0:ℤ) < (a : ℤ) + Int.fdiv ((st.contentChars : ℤ) - (st.contentCharsAtLastApi : ℤ)) 4
      omega

/-! C7: the tier classifier. -/

/-- A SessionData carrying only a tool-result byte percentage (all other
fields zero or empty); used to state that tier reads nothing else. -/
def pctOnly (p : ℤ) : SessionData :=
  { session_id := "", project := "", estimated_tokens := 0, post_trim_tokens := 0,
    reduction_pct := 0, message_count := 0, breakeven_turns := 0,
    cache_miss_penalty := 0, savings_per_turn := 0, tool_result_byte_pct := p,
    tool_result_bytes := 0, thinking_bytes := 0, file_history_bytes := 0,
    conversation_bytes := 0, tool_use_bytes := 0, other_bytes := 0,
    total_bytes := 0, tool_result_count := 0 }

/-- C7: tier is a total deterministic function of tool_result_byte_pct
alone, mapping values above 40 to tool_heavy, values above 15 and at most
40 to mixed, and everything else to conversational; in particular 41, 40,
16, 15 and 0 map to tool_heavy, mixed, mixed, conversational and
conversational. -/
theorem tier_total_function_of_pct :
    (∀ s : SessionData, s.tier = (pctOnly s.tool_result_byte_pct).tier) ∧
    (pctOnly 41).tier = "tool_heavy" ∧
    (pctOnly 40).tier = "mixed" ∧
    (pctOnly 16).tier = "mixed" ∧
    (pctOnly 15).tier = "conversational" ∧
    (pctOnly 0).tier = "conversational" ∧
    (∀ p : ℤ, 40 < p → (pctOnly p).tier = "tool_heavy") ∧
    (∀ p : ℤ, 15 < p → p ≤ 40 → (pctOnly p).tier = "mixed") ∧
    (∀ p : ℤ, p ≤ 15 → (pctOnly p).tier = "conversational") := by
  refine ⟨fun s => rfl, by decide, by decide, by decide, by decide, by decide, ?_, ?_, ?_⟩
  · intro p hp
    simp [SessionData.tier, pctOnly, TIER_TOOL_HEAVY, hp]
  · intro p hp1 hp2
    have hn : ¬ p > TIER_TOOL_HEAVY := by unfold TIER_TOOL_HEAVY; omega
    simp [SessionData.tier, pctOnly, TIER_MIXED, hn, hp1]
  · intro p hp
    have hn : ¬ p > TIER_TOOL_HEAVY := by unfold TIER_TOOL_HEAVY; omega
    have hn2 : ¬ p > TIER_MIXED := by unfold TIER_MIXED; omega
    simp [SessionData.tier, pctOnly, hn, hn2]

/-- C7 witness: the threshold clauses evaluated at the concrete
percentage 55. -/
theorem tier_total_function_of_pct_witness :
    (40 < (55:ℤ)) ∧ (pctOnly 55).tier = "tool_heavy" :=
  ⟨by norm_num, tier_total_function_of_pct.2.2.2.2.2.2.1 55 (by norm_num)⟩

/-! C4: the compaction boundary reset. -/

def c4List : List Record :=
  [Record.message 50 Role.assistant (some 5000) (ContentVal.str 10),
   Record.compaction 20 none]

/-- C4 counterexample: after an assistant record reports 5000 input
tokens, processing a compaction boundary leaves the last-seen API
input-token auxiliary counter at 5000 instead of clearing it, so not
every auxiliary counter is reset. -/
theorem compaction_keeps_lastApi_counterexample :
    ((c4List.foldl step initState).lastApiInputTokens = some 5000) ∧
    ¬ ((c4List.foldl step initState).lastApiInputTokens = none) := by
  constructor
  · decide
  · decide

/-- C4 amended: a compaction boundary record resets every running counter
and auxiliary counter to zero, seeding total with the record's own byte
length and, when an inline summary is present, the character counter with
the summary's character length and the conversation counter with the
record's byte length; the one exception is the last-seen API-reported
input-token total, which is left unchanged. -/
theorem compaction_step_resets_except_lastApi (s : AnalyzerState) (lb : ℕ) (sm : Option ℕ) :
    step s (Record.compaction lb sm) =
      { totalBytes := lb, toolResultBytes := 0, toolResultCount := 0,
        thinkingBytes := 0, thinkingCount := 0,
        fileHistoryBytes := 0, fileHistoryCount := 0,
        conversationBytes := if sm.isSome then lb else 0,
        toolUseBytes := 0, toolUseCount := 0, otherBytes := 0,
        contentChars := sm.getD 0, msgUser := 0, msgAssistant := 0,
        lastApiInputTokens := s.lastApiInputTokens, contentCharsAtLastApi := 0 } := rfl

/-! C5: compaction discards every pre-compaction contribution to the byte
counters. -/

/-- The seven byte counters of an analyzer state (total plus the six
category counters). -/
def byteCounters (s : AnalyzerState) : ℕ × ℕ × ℕ × ℕ × ℕ × ℕ × ℕ :=
  (s.totalBytes, s.toolResultBytes, s.thinkingBytes, s.fileHistoryBytes,
   s.conversationBytes, s.toolUseBytes, s.otherBytes)

/-- Stepping two states with equal byte counters over the same record
yields equal byte counters: the byte-counter deltas depend only on the
record. -/
lemma byteCounters_step_congr (s₁ s₂ : AnalyzerState) (r : Record)
    (h : byteCounters s₁ = byteCounters s₂) :
    byteCounters (step s₁ r) = byteCounters (step s₂ r) := by
  simp only [byteCounters, Prod.mk.injEq] at h
  obtain ⟨e1, e2, e3, e4, e5, e6, e7⟩ := h
  cases r with
  | malformed lb => simp [byteCounters, step, e1, e2, e3, e4, e5, e6, e7]
  | compaction lb sm => simp [byteCounters, step]
  | fileHistory lb => simp [byteCounters, step, e1, e2, e3, e4, e5, e6, e7]
  | queueOp lb => simp [byteCounters, step, e1, e2, e3, e4, e5, e6, e7]
  | message lb role usage content =>
      simp [byteCounters, step, e1, e2, e3, e4, e5, e6, e7]

/-- The byte counters right after a compaction record do not depend on the
state before it. -/
lemma byteCounters_step_compaction (s : AnalyzerState) (lb : ℕ) (sm : Option ℕ) :
    byteCounters (step s (Record.compaction lb sm)) =
      (lb, 0, 0, 0, if sm.isSome then lb else 0, 0, 0) := rfl

/-- C5: for a record sequence A, B, compaction, C, D the seven byte
counters after the full sequence equal the byte counters from analyzing
the sequence compaction, C, D alone. -/
theorem compaction_discards_prefix (A B C D : Record) (lb : ℕ) (sm : Option ℕ) :
    byteCounters ([A, B, Record.compaction lb sm, C, D].foldl step initState) =
      byteCounters ([Record.compaction lb sm, C, D].foldl step initState) := by
  show byteCounters
      (step (step (step (step (step initState A) B) (Record.compaction lb sm)) C) D) =
    byteCounters (step (step (step initState (Record.compaction lb sm)) C) D)
  apply byteCounters_step_congr
  apply byteCounters_step_congr
  rw [byteCounters_step_compaction, byteCounters_step_compaction]

/-! C6: total bytes versus the category sum. -/

/-- The byte length of a record (the UTF-8 length of the raw line). -/
def recordBytes : Record → ℕ
  | .malformed lb => lb
  | .compaction lb _ => lb
  | .fileHistory lb => lb
  | .queueOp lb => lb
  | .message lb _ _ _ => lb

/-- The bytes a record accounts to the three re-serialized categories
(tool_result, thinking signature, tool_use) in the source's inner loop. -/
def accountedBytes : Record → ℕ
  | .message _ _ _ c => (contentAcc c).trB + (contentAcc c).sigB + (contentAcc c).tuB
  | _ => 0

/-- The sum of the six category byte counters. -/
def catSum (s : AnalyzerState) : ℕ :=
  s.toolResultBytes + s.thinkingBytes + s.fileHistoryBytes +
    s.conversationBytes + s.toolUseBytes + s.otherBytes

lemma catSum_step_le (s : AnalyzerState) (r : Record)
    (hs : catSum s ≤ s.totalBytes) (hr : accountedBytes r ≤ recordBytes r) :
    catSum (step s r) ≤ (step s r).totalBytes := by
  cases r with
  | malformed lb =>
      simp only [catSum, step] at hs ⊢
      omega
  | compaction lb sm =>
      simp only [catSum, step]
      cases sm <;> simp
  | fileHistory lb =>
      simp only [catSum, step] at hs ⊢
      omega
  | queueOp lb =>
      simp only [catSum, step] at hs ⊢
      omega
  | message lb role usage content =>
      simp only [accountedBytes, recordBytes] at hr
      cases role <;> simp [catSum, step, Role.isConv] at hs ⊢ <;> try omega

lemma catSum_foldl_le (l : List Record) (s : AnalyzerState)
    (hs : catSum s ≤ s.totalBytes)
    (h : ∀ r ∈ l, accountedBytes r ≤ recordBytes r) :
    catSum (l.foldl step s) ≤ (l.foldl step s).totalBytes := by
  induction l generalizing s with
  | nil => exact hs
  | cons r rest ih =>
      exact ih (step s r) (catSum_step_le s r hs (h r (by simp)))
        (fun x hx => h x (by simp [hx]))

/-- C6 amended: whenever every record accounts at most its own byte length
to the re-serialized block categories, the running total-byte counter
dominates the sum of the six category counters at every point of the
fold.  The side condition is needed because the source re-serializes
blocks with json.dumps, whose output (spaces after separators, unicode
escapes) can exceed the bytes the block occupies in the raw line. -/
theorem total_ge_catSum_of_accounted_le (l : List Record)
    (h : ∀ r ∈ l, accountedBytes r ≤ recordBytes r) :
    catSum (l.foldl step initState) ≤ (l.foldl step initState).totalBytes :=
  catSum_foldl_le l initState (by decide) h

/-- C6 amended witness: the invariant evaluated over a concrete log of
three records. -/
theorem total_ge_catSum_of_accounted_le_witness :
    (∀ r ∈ [Record.message 10 Role.user none (ContentVal.str 4),
            Record.fileHistory 25,
            Record.message 30 Role.assistant none (ContentVal.blocks [Block.tool_result 12 3])],
        accountedBytes r ≤ recordBytes r) ∧
    catSum ([Record.message 10 Role.user none (ContentVal.str 4),
            Record.fileHistory 25,
            Record.message 30 Role.assistant none (ContentVal.blocks [Block.tool_result 12 3])].foldl
        step initState) ≤
      ([Record.message 10 Role.user none (ContentVal.str 4),
        Record.fileHistory 25,
        Record.message 30 Role.assistant none (ContentVal.blocks [Block.tool_result 12 3])].foldl
        step initState).totalBytes :=
  ⟨by decide, total_ge_catSum_of_accounted_le _ (by decide)⟩

/-- The C6 counterexample log.  Its first line is a user record of 545
bytes whose content is fourteen identical compact tool_result blocks:
each block occupies 36 bytes on disk but json.dumps re-serializes it with
a space after each colon and comma, giving 39 bytes, so the record
accounts 14 times 39 equals 546 bytes to toolResult while adding only 545
to total.  Nine further plain user records make the session pass the
ten-message minimum. -/
def c6File : SessionFile :=
  { name := "c6", project := "p", readable := true, size := 635,
    records :=
      Record.message 545 Role.user none
          (ContentVal.blocks (List.replicate 14 (Block.tool_result 39 1))) ::
        List.replicate 9 (Record.message 10 Role.user none (ContentVal.str 4)) }

/-- C6 counterexample: the analyzer produces a SessionRecord from c6File
whose total byte counter (635) is strictly below the sum of its six
category byte counters (636), refuting the claimed invariant for raw-log
parses. -/
theorem total_ge_catSum_counterexample :
    ((analyze_session c6File).map fun sd =>
        (sd.total_bytes,
         sd.tool_result_bytes + sd.thinking_bytes + sd.file_history_bytes +
           sd.conversation_bytes + sd.tool_use_bytes + sd.other_bytes)) =
      some (635, 636) ∧ 635 < 636 := by
  constructor
  · decide
  · norm_num

/-! C3 and C10: bounds on the token fields of produced SessionRecords. -/

lemma ratioOf_nonneg (st : AnalyzerState) : 0 ≤ ratioOf st := le_max_left 0 _

lemma ratioOf_le (st : AnalyzerState) : ratioOf st ≤ 19/20 :=
  max_le (by norm_num) (min_le_left _ _)

lemma postRawOf_ge_overhead (st : AnalyzerState) (h : 0 < st.totalBytes) :
    (SYSTEM_OVERHEAD : ℤ) ≤ postRawOf st := by
  unfold postRawOf
  rw [if_pos h]
  have hc : (0:ℚ) ≤ (contentTokOf st : ℚ) := by
    exact_mod_cast le_max_left 0 (estTok st - (SYSTEM_OVERHEAD : ℤ))
  have harg : (0:ℚ) ≤ (contentTokOf st : ℚ) * (1 - ratioOf st) := by
    apply mul_nonneg hc
    have := ratioOf_le st
    linarith
  have := pyRound_nonneg _ harg
  omega

lemma postRawOf_nonneg (st : AnalyzerState) (hest : 0 < estTok st) : 0 ≤ postRawOf st := by
  by_cases htb : 0 < st.totalBytes
  · have := postRawOf_ge_overhead st htb
    have hso : (0:ℤ) ≤ (SYSTEM_OVERHEAD : ℤ) := by positivity
    omega
  · unfold postRawOf
    rw [if_neg htb]
    omega

lemma postTrimOf_nonneg (st : AnalyzerState) (hest : 0 < estTok st) : 0 ≤ postTrimOf st :=
  le_min (postRawOf_nonneg st hest) (le_of_lt hest)

lemma postTrimOf_le_estTok (st : AnalyzerState) : postTrimOf st ≤ estTok st :=
  min_le_right _ _

lemma reductionOf_nonneg (st : AnalyzerState) : 0 ≤ reductionOf st := by
  unfold reductionOf
  split_ifs
  · exact le_max_left 0 _
  · exact le_refl 0

lemma reductionOf_le_100 (st : AnalyzerState) (hpost : 0 ≤ postTrimOf st) :
    reductionOf st ≤ 100 := by
  unfold reductionOf
  split_ifs with hpos
  · apply max_le (by norm_num)
    have hestq : (0:ℚ) < (estTok st : ℚ) := by exact_mod_cast hpos
    have hpostq : (0:ℚ) ≤ (postTrimOf st : ℚ) := by exact_mod_cast hpost
    have hdivle : ((estTok st : ℚ) - (postTrimOf st : ℚ)) / (estTok st : ℚ) ≤ 1 := by
      rw [div_le_one hestq]
      linarith
    have harg : ((estTok st : ℚ) - (postTrimOf st : ℚ)) / (estTok st : ℚ) * 100 * 10 ≤
        ((1000 : ℤ) : ℚ) := by
      push_cast
      linarith
    have hpr := pyRound_le _ 1000 harg
    have hprq : (pyRound (((estTok st : ℚ) - (postTrimOf st : ℚ)) / (estTok st : ℚ) * 100 * 10) : ℚ) ≤
        1000 := by exact_mod_cast hpr
    linarith
  · norm_num

/-- C3 amended: every SessionRecord produced by the session analyzer
satisfies 0 ≤ postTrimTokens ≤ estimatedTokens and
0 ≤ reductionPercent ≤ 100; the ground-truth adapter, in contrast, copies
estimatedTokens, postTrimTokens and reductionPercent verbatim from the
input entry without validation, so its records satisfy the bounds only
when the input file does. -/
theorem session_record_bounds :
    (∀ (f : SessionFile) (sd : SessionData), analyze_session f = some sd →
      0 ≤ sd.post_trim_tokens ∧ sd.post_trim_tokens ≤ sd.estimated_tokens ∧
      0 ≤ sd.reduction_pct ∧ sd.reduction_pct ≤ 100) ∧
    (∀ (p : Pricing) (hr : ℚ) (e : GTEntry),
      (sessionOfEntry p hr e).estimated_tokens = e.estimatedTokens ∧
      (sessionOfEntry p hr e).post_trim_tokens = e.postTrimTokens ∧
      (sessionOfEntry p hr e).reduction_pct = e.reductionPercent) := by
  constructor
  · intro f sd h
    unfold analyze_session at h
    split_ifs at h with h1 h2
    have hsplit : 10 ≤ (f.records.foldl step initState).msgUser +
        (f.records.foldl step initState).msgAssistant ∧
        mkSessionData f.name f.project (f.records.foldl step initState) = sd := by
      simpa using h
    obtain ⟨-, hsd⟩ := hsplit
    subst hsd
    have hg : goodState (f.records.foldl step initState) :=
      goodState_foldl _ _ goodState_init
    have hest := estTok_pos _ hg
    have hpost := postTrimOf_nonneg _ hest
    exact ⟨hpost, postTrimOf_le_estTok _, reductionOf_nonneg _, reductionOf_le_100 _ hpost⟩
  · intro p hr e
    exact ⟨rfl, rfl, rfl⟩

/-- The adapter entry refuting the unconditional C3 claim: the file
asserts 200 post-trim tokens against 100 estimated tokens and a negative
reduction percent. -/
def c3Entry : GTEntry :=
  { sessionId := "gt", projectName := none, estimatedTokens := 100,
    postTrimTokens := 200, reductionPercent := -50, messageCount := none,
    cacheMissPenalty := none, savingsPerTurn := none, toolResultBytePct := none,
    totalBytes := none, trBytes := none, thBytes := none, fhBytes := none,
    cvBytes := none, tuBytes := none, otBytes := none, trCount := none }

/-- C3 counterexample: the ground-truth adapter emits a SessionRecord with
postTrimTokens 200 above estimatedTokens 100 and reductionPercent -50
below zero, because load_from_json copies these fields from the file
without validation. -/
theorem session_record_bounds_counterexample :
    (sessionOfEntry sonnetPricing (9/10) c3Entry).post_trim_tokens = 200 ∧
    (sessionOfEntry sonnetPricing (9/10) c3Entry).estimated_tokens = 100 ∧
    ¬ ((sessionOfEntry sonnetPricing (9/10) c3Entry).post_trim_tokens ≤
        (sessionOfEntry sonnetPricing (9/10) c3Entry).estimated_tokens) ∧
    (sessionOfEntry sonnetPricing (9/10) c3Entry).reduction_pct < 0 := by
  refine ⟨rfl, rfl, by decide, ?_⟩
  have hred : (sessionOfEntry sonnetPricing (9/10) c3Entry).reduction_pct = -50 := rfl
  rw [hred]
  norm_num

/-- A minimal clean session: nine user records and one assistant record
reporting 100 input tokens, 100 bytes in total. -/
def c10File : SessionFile :=
  { name := "c10", project := "p", readable := true, size := 100,
    records :=
      List.replicate 9 (Record.message 10 Role.user none (ContentVal.str 0)) ++
        [Record.message 10 Role.assistant (some 100) (ContentVal.str 0)] }

/-- The analyzer state reached on c10File and the record built from it. -/
def c10sd : SessionData :=
  mkSessionData "c10" "p" (c10File.records.foldl step initState)

/-- C3 witness: the analyzer bounds evaluated on the concrete session
c10File. -/
theorem session_record_bounds_witness :
    analyze_session c10File = some c10sd ∧
    (0 ≤ c10sd.post_trim_tokens ∧ c10sd.post_trim_tokens ≤ c10sd.estimated_tokens ∧
      0 ≤ c10sd.reduction_pct ∧ c10sd.reduction_pct ≤ 100) :=
  ⟨rfl, session_record_bounds.1 c10File c10sd rfl⟩

/-- C10: for any raw-log session with positive total bytes, the post-trim
estimate never falls below the smaller of the estimate and the fixed
20000-token system overhead; in particular when the estimate is at most
20000 the analyzer returns it unchanged with reduction percent zero, no
matter how many removable bytes the session contains. -/
theorem analyzer_postTrim_floor (f : SessionFile) (sd : SessionData)
    (h : analyze_session f = some sd) (ht : 0 < sd.total_bytes) :
    min sd.estimated_tokens (20000 : ℤ) ≤ sd.post_trim_tokens ∧
    (sd.estimated_tokens ≤ (20000 : ℤ) →
      sd.post_trim_tokens = sd.estimated_tokens ∧ sd.reduction_pct = 0) := by
  unfold analyze_session at h
  split_ifs at h with h1 h2
  have hsplit : 10 ≤ (f.records.foldl step initState).msgUser +
      (f.records.foldl step initState).msgAssistant ∧
      mkSessionData f.name f.project (f.records.foldl step initState) = sd := by
    simpa using h
  obtain ⟨-, hsd⟩ := hsplit
  subst hsd
  have hso : (SYSTEM_OVERHEAD : ℤ) = 20000 := rfl
  have htb : 0 < (f.records.foldl step initState).totalBytes := ht
  constructor
  · have hraw := postRawOf_ge_overhead _ htb
    rw [hso] at hraw
    show min (estTok (f.records.foldl step initState)) (20000 : ℤ) ≤
      postTrimOf (f.records.foldl step initState)
    unfold postTrimOf
    omega
  · intro hle
    have hle2 : estTok (f.records.foldl step initState) ≤ (20000 : ℤ) := hle
    have hmax : contentTokOf (f.records.foldl step initState) = 0 := by
      unfold contentTokOf
      rw [hso]
      omega
    have hraw : postRawOf (f.records.foldl step initState) = (SYSTEM_OVERHEAD : ℤ) := by
      unfold postRawOf
      rw [if_pos htb, hmax]
      norm_num [pyRound_zero]
    have hpt : postTrimOf (f.records.foldl step initState) =
        estTok (f.records.foldl step initState) := by
      unfold postTrimOf
      rw [hraw, hso]
      omega
    refine ⟨hpt, ?_⟩
    show reductionOf (f.records.foldl step initState) = 0
    unfold reductionOf
    split_ifs with hpos
    · rw [hpt]
      simp [pyRound_zero]
    · rfl

/-- C10 witness: on c10File the estimate is 100 tokens (from the API
checkpoint), which is below the overhead, and the record is returned
untrimmed with zero reduction. -/
theorem analyzer_postTrim_floor_witness :
    (analyze_session c10File = some c10sd ∧ 0 < c10sd.total_bytes) ∧
    (min c10sd.estimated_tokens (20000 : ℤ) ≤ c10sd.post_trim_tokens ∧
      (c10sd.estimated_tokens ≤ (20000 : ℤ) →
        c10sd.post_trim_tokens = c10sd.estimated_tokens ∧ c10sd.reduction_pct = 0)) :=
  ⟨⟨rfl, by decide⟩, analyzer_postTrim_floor c10File c10sd rfl (by decide)⟩

/-! C8: not-analyzable conditions and per-session failure isolation. -/

/-- C8: the analyzer returns none exactly for an unreadable file, a file
below the 100-byte minimum, or fewer than 10 combined user and assistant
records; and a file that analyzes to none contributes nothing to a batch,
leaving the records produced for the files before and after it
untouched. -/
theorem not_analyzable_iff_and_batch_isolated :
    (∀ f : SessionFile,
      analyze_session f = none ↔
        (f.readable = false ∨ f.size < 100 ∨
          (f.records.foldl step initState).msgUser +
            (f.records.foldl step initState).msgAssistant < 10)) ∧
    (∀ (fs₁ fs₂ : List SessionFile) (f : SessionFile) (minTokens : ℤ)
        (pricing : Pricing) (hr : ℚ),
      analyze_session f = none →
        runBatch (fs₁ ++ f :: fs₂) minTokens pricing hr =
          runBatch fs₁ minTokens pricing hr ++ runBatch fs₂ minTokens pricing hr) := by
  constructor
  · intro f
    unfold analyze_session
    split_ifs with h1 h2 <;> simp_all
  · intro fs₁ fs₂ f minTokens pricing hr h
    unfold runBatch
    rw [List.filterMap_append, List.filterMap_cons]
    rw [h]
    rfl

/-- An unreadable session file. -/
def c8Bad : SessionFile :=
  { name := "bad", project := "p", readable := false, size := 0, records := [] }

/-- C8 witness: an unreadable file analyzes to none and drops out of a
concrete batch without affecting it. -/
theorem not_analyzable_iff_and_batch_isolated_witness :
    analyze_session c8Bad = none ∧
    runBatch ([] ++ c8Bad :: []) 5000 sonnetPricing (9/10) =
      runBatch [] 5000 sonnetPricing (9/10) ++ runBatch [] 5000 sonnetPricing (9/10) :=
  ⟨by decide,
    not_analyzable_iff_and_batch_isolated.2 [] [] c8Bad 5000 sonnetPricing (9/10) (by decide)⟩

/-! C9: which derived fields the ground-truth adapter recomputes. -/

/-- C9 amended: for every entry the adapter recomputes breakevenTurns with
project_costs under the currently requested pricing and hit rate (horizon
60), but it does not recompute cacheMissPenalty or savingsPerTurn: those
two fields are copied from the input file, defaulting to zero when
absent. -/
theorem adapter_recomputes_breakeven_only (entries : List GTEntry)
    (pricing : Pricing) (hr : ℚ) :
    load_from_json entries pricing hr = entries.map (sessionOfEntry pricing hr) ∧
    ∀ e : GTEntry,
      (sessionOfEntry pricing hr e).breakeven_turns =
        (project_costs (e.estimatedTokens : ℚ) (e.postTrimTokens : ℚ) pricing hr 60).breakeven ∧
      (sessionOfEntry pricing hr e).cache_miss_penalty = e.cacheMissPenalty.getD 0 ∧
      (sessionOfEntry pricing hr e).savings_per_turn = e.savingsPerTurn.getD 0 :=
  ⟨rfl, fun _ => ⟨rfl, rfl, rfl⟩⟩

/-- An adapter entry whose file carries a stale cache-miss penalty of 42
dollars and per-turn savings of 7 dollars. -/
def c9Entry : GTEntry :=
  { sessionId := "gt9", projectName := none, estimatedTokens := 100000,
    postTrimTokens := 50000, reductionPercent := 50, messageCount := none,
    cacheMissPenalty := some 42, savingsPerTurn := some 7, toolResultBytePct := none,
    totalBytes := none, trBytes := none, thBytes := none, fhBytes := none,
    cvBytes := none, tuBytes := none, otBytes := none, trCount := none }

/-- C9 counterexample: under sonnet pricing at hit rate 0.9 the adapter
keeps the file's cacheMissPenalty 42 and savingsPerTurn 7, although
recomputing these price-dependent fields the way the system itself does
(cold cost of the post-trim count minus the pre-trim steady turn cost,
and the difference of the two steady turn costs) gives 0.123 and 0.03225
dollars respectively. -/
theorem adapter_copies_penalty_counterexample :
    (sessionOfEntry sonnetPricing (9/10) c9Entry).cache_miss_penalty = 42 ∧
    (sessionOfEntry sonnetPricing (9/10) c9Entry).savings_per_turn = 7 ∧
    cold_cost ((50000 : ℤ) : ℚ) sonnetPricing -
      cost_per_turn ((100000 : ℤ) : ℚ) (9/10) sonnetPricing ≠ 42 ∧
    cost_per_turn ((100000 : ℤ) : ℚ) (9/10) sonnetPricing -
      cost_per_turn ((50000 : ℤ) : ℚ) (9/10) sonnetPricing ≠ 7 := by
  refine ⟨rfl, rfl, ?_, ?_⟩
  · norm_num [cold_cost, cost_per_turn, sonnetPricing]
  · norm_num [cold_cost, cost_per_turn, sonnetPricing]

end CMV
